import Mathlib

/-!
Shallow embedding of the `promise-clerk` library
(`src/really-determined-property-getter.js`, `src/promise-chain-error-catcher.js`,
`src/quitter.js`, `src/transaction.js`).

All promise chains in the source resolve strictly sequentially, so each chain is
embedded as a deterministic interpreter over a settled-promise state
(`PromState`), threading the mutable run state (error ledger, quit flag) and a
trace of collaborator invocations explicitly.  Collaborator functions (sources,
synchronizers, steps) are opaque to the library; they are modelled by their
observable behaviour: what they return when invoked.
-/

namespace PromiseClerk

/-- A JavaScript value, as far as the library observes one (resolved values are
passed through opaquely; they only surface via `JSON.stringify` in messages). -/
inductive Val where
  | str (s : String)
  | num (n : Int)
  | bool (b : Bool)
deriving DecidableEq, Repr

/-- `JSON.stringify` on the modelled values. -/
def jsonOfVal : Val → String
  | .str s => "\"" ++ s ++ "\""
  | .num n => toString n
  | .bool b => if b then "true" else "false"

/-- A JavaScript `Error` object as the library uses it: a `message`, the
constructor `name` (always `"Error"` here), and the `stepName` property that
`PromiseChainErrorCatcher.nameError` attaches. -/
structure JsError where
  name : String
  message : String
  stepName : Option String
deriving DecidableEq, Repr

/-- `new Error(msg)`. -/
def mkError (msg : String) : JsError := ⟨"Error", msg, none⟩

/-- `Error.prototype.toString()`: `name` if the message is empty, else
`name ++ ": " ++ message`. -/
def JsError.toStr (e : JsError) : String :=
  if e.message = "" then e.name else e.name ++ ": " ++ e.message

/-- A settled promise: fulfilled with a value or rejected with an error. -/
inductive PromState where
  | ful (v : Val)
  | rej (e : JsError)
deriving DecidableEq, Repr

/-- The observable behaviour of invoking one collaborator function
(a source or synchronizer): it returns a promise that settles to `res`,
or it returns a non-promise value (modelled by its `JSON.stringify`). -/
inductive SourceBeh where
  | retPromise (res : PromState)
  | retNonPromise (json : String)

/-- `assertIsPromise` from `promise-chain-error-catcher.js`: a promise-like
return value has its rejection's `message` rewritten to
`it was rejected with '<error.toString()>'`; a non-promise return becomes a
rejection with the `it was expected to return a Promise...` message. -/
def assertIsPromise : SourceBeh → PromState
  | .retPromise (.ful v) => .ful v
  | .retPromise (.rej e) =>
      .rej { e with message := "it was rejected with '" ++ e.toStr ++ "'" }
  | .retNonPromise json =>
      .rej (mkError ("it was expected to return a Promise, but instead it returned " ++ json))

/-- `verifyValue` as a `.then` stage: on a fulfilled value, reject with the
`the verifier function did not accept the value <json>` error when the
configured verifier refuses it; rejections pass through untouched. -/
def verifyValue (verifier : Option (Val → Bool)) : PromState → PromState
  | .ful v =>
      match verifier with
      | some f => if f v then .ful v else
          .rej (mkError ("the verifier function did not accept the value " ++ jsonOfVal v))
      | none => .ful v
  | .rej e => .rej e

/-- `PromiseChainErrorCatcher.nameError(name)` as a `.catch` stage: set the
error's `stepName` only if it is unset, then re-throw; fulfilled values pass. -/
def nameError (name : String) : PromState → PromState
  | .ful v => .ful v
  | .rej e =>
      match e.stepName with
      | some _ => .rej e
      | none => .rej { e with stepName := some name }

/-- One entry of `PromiseChainErrorCatcher.results`: a raw pushed error, or the
record that `recordSuccess(name)` pushes (`{success: true, stepName, toString}`,
where `toString` renders `JSON.stringify(value)`). -/
inductive LedgerEntry where
  | failure (e : JsError)
  | success (stepName : String) (json : String)
deriving DecidableEq, Repr

/-- One observable collaborator invocation during a `get()` run. -/
inductive GetterEvent where
  | primaryInvoked
  | secondaryInvoked (index : Nat)
  | synchronizerInvoked (index : Nat) (value : Val)
deriving DecidableEq, Repr

/-- The per-run mutable state of `get()`: the `PromiseChainErrorCatcher`'s
`results`, the `Quitter`'s `doQuit` flag, and the invocation trace.  Both the
error catcher and the quitter are created fresh inside each `get()` call. -/
structure RunState where
  results : List LedgerEntry
  doQuit : Bool
  trace : List GetterEvent
deriving DecidableEq, Repr

/-- The `configuration` object of `ReallyDeterminedPropertyGetter`. -/
structure Configuration where
  primarySource : Option SourceBeh
  secondarySources : List SourceBeh
  verifier : Option (Val → Bool)
  primarySourceSynchronizers : List (Val → SourceBeh)
  ignoreSynchronizationErrors : Bool

/-- `${stepName}` interpolation in `reportError`: an unset property renders as
`"undefined"`. -/
def displayStepName : Option String → String
  | some n => n
  | none => "undefined"

/-- One line of `reportError`'s summary. -/
def entryLine : LedgerEntry → String
  | .failure e => "  - " ++ displayStepName e.stepName ++ " failed because " ++ e.message ++ "\n"
  | .success n json => "  - " ++ n ++ " resolved with " ++ json ++ "\n"

/-- `PromiseChainErrorCatcher.reportError`: the composite diagnostic error.
(The dead `oneError.tag` branch is never reachable: no error in this library is
ever given a `tag`.) -/
def reportError (callingEntityName : String) (results : List LedgerEntry) : JsError :=
  mkError (callingEntityName ++ " has failed.\n" ++ String.join (results.map entryLine))

/-- The name `get()` passes to `new PromiseChainErrorCatcher(...)`. -/
def callingEntityName : String := "The Really Determined Property Getter"

/-- One link of the `performSynchronizationWithPrimary` chain, for the
synchronizer at (0-based) `idx`:
`.then(() => assertIsPromise(sync(value)))`
`.catch(errorCatcher.nameError(name))`
`.catch(quitter.quitOnCondition(!ignoreSynchronizationErrors))`
`.then(() => value)`.
Entering fulfilled, the synchronizer is invoked; entering rejected, the `.then`
is skipped (the synchronizer is not invoked) and the two `.catch` stages run. -/
def synchronizerLink (ignore : Bool) (value : Val) (idx : Nat) (sync : Val → SourceBeh)
    (p : PromState) (st : RunState) : PromState × RunState :=
  match p with
  | .ful _ =>
      match nameError ("primarySourceSynchronizer function #" ++ toString (idx + 1))
          (assertIsPromise (sync value)) with
      | .ful _ =>
          (.ful value, { st with trace := st.trace ++ [.synchronizerInvoked idx value] })
      | .rej e =>
          if ignore then
            (.ful value, { st with trace := st.trace ++ [.synchronizerInvoked idx value] })
          else
            (.rej e, { st with doQuit := true,
                               trace := st.trace ++ [.synchronizerInvoked idx value] })
  | .rej e =>
      match nameError ("primarySourceSynchronizer function #" ++ toString (idx + 1))
          (.rej e) with
      | .ful v => (.ful v, st)
      | .rej e' =>
          if ignore then (.ful value, st)
          else (.rej e', { st with doQuit := true })

/-- The `forEach` of `performSynchronizationWithPrimary`, with the explicit
0-based index that `forEach` supplies. -/
def performSynchronizationAux (ignore : Bool) (value : Val) :
    List (Val → SourceBeh) → Nat → PromState → RunState → PromState × RunState
  | [], _, p, st => (p, st)
  | sync :: rest, idx, p, st =>
      performSynchronizationAux ignore value rest (idx + 1)
        (synchronizerLink ignore value idx sync p st).1
        (synchronizerLink ignore value idx sync p st).2

/-- `performSynchronizationWithPrimary`: starting from `Promise.resolve(value)`,
chain every registered synchronizer in registration order. -/
def performSynchronizationWithPrimary (cfg : Configuration) (value : Val) (st : RunState) :
    PromState × RunState :=
  performSynchronizationAux cfg.ignoreSynchronizationErrors value
    cfg.primarySourceSynchronizers 0 (.ful value) st

/-- One link of the `getFromSecondaries` chain, for the secondary source at
(0-based) `idx`.  A fulfilled chain skips the `.catch` entirely.  On a
rejected chain: `quitter.maybeQuit(secondaryError)` re-throws when `doQuit` is
latched (before the ledger push and before the source is invoked); otherwise
the upstream error is pushed, the source invoked, and the result is run
through `assertIsPromise`, `verifyValue`, `nameError`, `recordSuccess` and
`performSynchronizationWithPrimary`. -/
def secondarySourceLink (cfg : Configuration) (idx : Nat) (src : SourceBeh)
    (p : PromState) (st : RunState) : PromState × RunState :=
  match p with
  | .ful v => (.ful v, st)
  | .rej e =>
      if st.doQuit then (.rej e, st)
      else
        match nameError ("secondary source #" ++ toString (idx + 1))
            (verifyValue cfg.verifier (assertIsPromise src)) with
        | .rej e' =>
            (.rej e', { st with results := st.results ++ [.failure e],
                                trace := st.trace ++ [.secondaryInvoked idx] })
        | .ful v =>
            performSynchronizationWithPrimary cfg v
              { st with results := st.results ++ [.failure e] ++
                  [.success ("secondary source #" ++ toString (idx + 1)) (jsonOfVal v)],
                        trace := st.trace ++ [.secondaryInvoked idx] }

/-- The `forEach` of `getFromSecondaries`, with the explicit index. -/
def getFromSecondariesAux (cfg : Configuration) :
    List SourceBeh → Nat → PromState → RunState → PromState × RunState
  | [], _, p, st => (p, st)
  | src :: rest, idx, p, st =>
      getFromSecondariesAux cfg rest (idx + 1)
        (secondarySourceLink cfg idx src p st).1
        (secondarySourceLink cfg idx src p st).2

/-- `getFromSecondaries`: starting from `Promise.reject(primaryError)`, chain
every secondary source in registration order. -/
def getFromSecondaries (cfg : Configuration) (primaryError : JsError) (st : RunState) :
    PromState × RunState :=
  getFromSecondariesAux cfg cfg.secondarySources 0 (.rej primaryError) st

/-- The primary attempt of `get()`:
`assertIsPromise(primarySource()).then(verifyValue).catch(nameError('primary source'))`. -/
def primaryAttempt (cfg : Configuration) (primary : SourceBeh) : PromState :=
  nameError "primary source" (verifyValue cfg.verifier (assertIsPromise primary))

/-- The attempt pipeline applied to any one source's behaviour:
`assertIsPromise` then `verifyValue` (the secondary links additionally run
`nameError` with their own name). -/
def attemptOutcome (cfg : Configuration) (beh : SourceBeh) : PromState :=
  verifyValue cfg.verifier (assertIsPromise beh)

/-- `errorCatcher.handleFinalError()` as the last `.catch` of `get()`'s chain:
on a rejection, push the final error and throw `reportError()`'s composite;
fulfilled values pass through. -/
def handleFinalError (pr : PromState × RunState) : PromState × RunState :=
  match pr.1 with
  | .ful v => (.ful v, pr.2)
  | .rej e =>
      (.rej (reportError callingEntityName (pr.2.results ++ [.failure e])),
       { pr.2 with results := pr.2.results ++ [.failure e] })

/-- The body of one `get()` run after the synchronous guards: the primary
attempt, the fallback over the secondaries on its failure, and
`errorCatcher.handleFinalError()`.  The error catcher and quitter start
fresh: `results = []`, `doQuit = false`. -/
def runGet (cfg : Configuration) (primary : SourceBeh) : PromState × RunState :=
  match primaryAttempt cfg primary with
  | .ful v => handleFinalError (.ful v, ⟨[], false, [.primaryInvoked]⟩)
  | .rej e => handleFinalError (getFromSecondaries cfg e ⟨[], false, [.primaryInvoked]⟩)

/-- The `ReallyDeterminedPropertyGetter` instance: its configuration and the
`getInProgress` guard (the only instance state that survives across calls). -/
structure ReallyDeterminedPropertyGetter where
  configuration : Configuration
  getInProgress : Bool

/-- The synchronous usage error thrown by a re-entrant `get()`. -/
def getAgainMessage : String :=
  "`get` was called again before the first call to `get` completed. This will produce unexpected behavior and is not allowed."

/-- The synchronous usage error thrown by `get()` without a primary source. -/
def noPrimarySourceMessage : String :=
  "Cannot get value without a primary source. Use `.primarySource(() => primarySourcePromise)`"

/-- `get()`: the synchronous guards, then one full run.  `getInProgress` is set
while the run is in flight and cleared (on both the success and the failure
path) before the returned promise settles, so the instance handed back with the
settled result always has `getInProgress = false`.  A call made while a prior
run is still in flight is represented by calling `get` on an instance whose
`getInProgress` is still `true`. -/
def ReallyDeterminedPropertyGetter.get (g : ReallyDeterminedPropertyGetter) :
    Except JsError ((PromState × RunState) × ReallyDeterminedPropertyGetter) :=
  if g.getInProgress then Except.error (mkError getAgainMessage)
  else
    match g.configuration.primarySource with
    | none => Except.error (mkError noPrimarySourceMessage)
    | some primary =>
        Except.ok (runGet g.configuration primary, { g with getInProgress := false })

/-! ## Transaction (`src/transaction.js`) -/

/-- The JS value held in `this.currentStep`: absent/`undefined` before the
first `execute()`, a number afterwards, or `NaN` (which arises from
`undefined - 1` in `resume()`). -/
inductive CurrentStep where
  | undef
  | num (n : Int)
  | nan
deriving DecidableEq, Repr

/-- `this.currentStep - 1` in `resume()`: `undefined - 1` and `NaN - 1` are
both `NaN`. -/
def CurrentStep.jsSubOne : CurrentStep → CurrentStep
  | .undef => .nan
  | .nan => .nan
  | .num n => .num (n - 1)

/-- `this.currentStep >= 0` in `execute()`: comparisons against `undefined`
and `NaN` are `false`. -/
def CurrentStep.jsGeZero : CurrentStep → Bool
  | .undef => false
  | .nan => false
  | .num n => decide (0 ≤ n)

/-- A step's resolved value as `handleStepSuccess` classifies it:
`typeof newContext === 'object'` keeps the mapping, anything else is replaced
by `{}` (contributes nothing to the context merge). -/
inductive StepResolution where
  | obj (newContext : List (String × Val))
  | nonObject

/-- The observable behaviour of one step invocation: the returned promise
resolves, rejects, or the step did not return a promise at all (modelled by
the `JSON.stringify` of what it returned). -/
inductive StepOutcome where
  | resolved (r : StepResolution)
  | rejected (message : String)
  | notAPromise (json : String)

/-- A step collaborator.  The transaction only ever calls `step(context)`; a JS
closure may behave differently on each call, so the model indexes the
behaviour by how many times this step has been invoked so far. -/
def StepFn := Nat → List (String × Val) → StepOutcome

/-- Observable callback/collaborator activity during a transaction run. -/
inductive TransactionEvent where
  | stepInvoked (index : Nat) (context : List (String × Val))
  | onSuccessCalled
  | onErrorCalled (message : String)
  | onSpecificErrorCalled (callbackIndex : Nat) (message : String)
  | onResumeCalled
deriving DecidableEq, Repr

/-- JS property assignment of one key: overwrite in place if the key exists,
else append. -/
def setKey (l : List (String × Val)) (kv : String × Val) : List (String × Val) :=
  if l.any (fun p => p.1 = kv.1) then
    l.map (fun p => if p.1 = kv.1 then (p.1, kv.2) else p)
  else l ++ [kv]

/-- `Object.assign({}, base, upd)`: copy `base`, then write every key of `upd`
over it in order (later keys win). -/
def jsAssign (base upd : List (String × Val)) : List (String × Val) :=
  upd.foldl setKey base

/-- A `Transaction` instance.  Callback slots carry only what the model can
observe: whether a callback is registered (`onSuccess`/`onResume`/`onError`)
and, for `onSpecificError`, the ordered list of pattern matchers.  A pattern
given as a string `s` becomes the anchored regex `^s$`, i.e. (for a literal
string without regex metacharacters) the matcher `fun m => m == s`; a pattern
given as a `RegExp` is an arbitrary matcher.  `counts` is bookkeeping for the
step collaborators (how often each has been invoked), not state of the JS
class itself. -/
structure Transaction where
  steps : List StepFn
  onErrorRegistered : Bool
  onSuccessRegistered : Bool
  onResumeRegistered : Bool
  onSpecificErrors : List (String → Bool)
  context : List (String × Val)
  currentStep : CurrentStep
  resumedBeforeNextTick : Bool
  counts : List Nat
  trace : List TransactionEvent

/-- Modelled from the spec: the `ordinal` npm package imported by
`src/transaction.js` is an external dependency whose source is not in this
repository.  The spec states that step `n` (1-indexed) "is rendered with
standard English ordinal suffix rules (1st, 2nd, 3rd, 4th, …, 11th, 12th,
13th, 21st, …)". -/
def ordinal (n : Nat) : String :=
  let suffix :=
    if 11 ≤ n % 100 ∧ n % 100 ≤ 13 then "th"
    else if n % 10 = 1 then "st"
    else if n % 10 = 2 then "nd"
    else if n % 10 = 3 then "rd"
    else "th"
  toString n ++ suffix

/-- `currentStepText`: `'onSuccess callback'` once `currentStep` is past the
last step, else `ordinal(currentStep + 1) + ' step'`.  When `handleStepError`
runs, `currentStep` is always a number `≥ 0` (every path into it goes through
`getNextStep`); the `undef`/`nan` branches are unreachable there and render
the JS string coercion of those values. -/
def currentStepText (t : Transaction) : String :=
  match t.currentStep with
  | .num n =>
      if (t.steps.length : Int) ≤ n then "onSuccess callback"
      else ordinal (n.toNat + 1) ++ " step"
  | .nan => "NaNth step"
  | .undef => "undefinedth step"

/-- The `forEach` of `findErrorCallback`: collect the (0-based registration)
indexes of every `onSpecificError` entry whose pattern matches the message. -/
def collectSpecificErrorCallbacks :
    List (String → Bool) → Nat → String → List Nat
  | [], _, _ => []
  | pat :: rest, idx, msg =>
      (if pat msg then [idx] else []) ++ collectSpecificErrorCallbacks rest (idx + 1) msg

/-- `findErrorCallback(errorMessage)`: the indexes of the specific-error
callbacks that will fire; when empty, the general `onError` fires instead. -/
def findErrorCallbackHits (t : Transaction) (errorMessage : String) : List Nat :=
  collectSpecificErrorCallbacks t.onSpecificErrors 0 errorMessage

/-- The callback invocations `handleStepError` performs for a raw step-failure
message.  Note the source computes `findErrorCallback(error.message)` with the
raw message and only afterwards rewrites `error.message` to
`` `Error in ${this.currentStepText()}: ${error.message}` ``, so the matchers
see the unprefixed message while the callbacks receive the prefixed one. -/
def stepErrorEvents (t : Transaction) (message : String) : List TransactionEvent :=
  let hits := findErrorCallbackHits t message
  let prefixedMessage := "Error in " ++ currentStepText t ++ ": " ++ message
  if hits.isEmpty then [.onErrorCalled prefixedMessage]
  else hits.map (fun i => .onSpecificErrorCalled i prefixedMessage)

/-- `handleStepError`: dispatch to the matching specific-error callbacks or to
`onError`.  `resumedBeforeNextTick` is set before the callbacks run and
cleared right after they return; the callbacks themselves are external, so at
the end of the operation the flag is `false` again. -/
def handleStepError (t : Transaction) (message : String) : Transaction :=
  { t with trace := t.trace ++ stepErrorEvents t message,
           resumedBeforeNextTick := false }

/-- `afterTransactionIsComplete`: `this.callbacks.onSuccess && this.callbacks.onSuccess()`. -/
def afterTransactionIsComplete (t : Transaction) : Transaction :=
  if t.onSuccessRegistered then { t with trace := t.trace ++ [.onSuccessCalled] } else t

/-- `getNextStep`: advance `currentStep` (`0` when it is not yet a number,
else `+ 1`; note `typeof NaN === 'number'` and `NaN + 1` is `NaN`), then look
up `steps[currentStep]` (`undefined` for `NaN` or an out-of-range index). -/
def getNextStep (t : Transaction) : Transaction × Option (Nat × StepFn) :=
  let c : CurrentStep :=
    match t.currentStep with
    | .undef => .num 0
    | .nan => .nan
    | .num n => .num (n + 1)
  let t := { t with currentStep := c }
  match c with
  | .num n =>
      if 0 ≤ n then (t, (t.steps.get? n.toNat).map (fun f => (n.toNat, f)))
      else (t, none)
  | _ => (t, none)

/-- `mergeContext`: the context update performed by `handleStepSuccess` before
it re-enters `runNextStep`. -/
def mergeContext (t : Transaction) (r : StepResolution) : Transaction :=
  let newContext := match r with | .obj c => c | .nonObject => []
  { t with context := jsAssign t.context newContext }

/-- Bookkeeping for one step invocation: bump the collaborator's invocation
count and record the `stepInvoked` event with the context the step receives.
(This is observability bookkeeping, not state of the JS class.) -/
def recordStepInvocation (t : Transaction) (idx : Nat) : Transaction :=
  { t with counts := t.counts.set idx (t.counts.getD idx 0 + 1),
           trace := t.trace ++ [.stepInvoked idx t.context] }

/-- `runNextStep`, with explicit fuel for termination (each iteration either
finishes or advances `currentStep`, so `steps.length + 1` iterations always
suffice from any entry point; the public operations supply that much fuel and
the fuel-exhausted branch is never reached by them).  The step at the advanced
cursor is invoked with the current context (and with its own invocation count,
which selects the collaborator's behaviour for this call).  A step that does
not return a promise-like value is routed to `handleStepError` with the
`it didn't return a Promise...` message. -/
def runNextStep : Nat → Transaction → Transaction
  | 0, t => t
  | fuel + 1, t =>
      match (getNextStep t).2 with
      | none => afterTransactionIsComplete (getNextStep t).1
      | some (idx, f) =>
          match f ((getNextStep t).1.counts.getD idx 0) ((getNextStep t).1.context) with
          | .resolved r =>
              runNextStep fuel (mergeContext (recordStepInvocation (getNextStep t).1 idx) r)
          | .rejected msg =>
              handleStepError (recordStepInvocation (getNextStep t).1 idx) msg
          | .notAPromise json =>
              handleStepError (recordStepInvocation (getNextStep t).1 idx)
                ("it didn't return a Promise. Instead, it returned " ++ json)

/-- `handleStepSuccess`: merge the step's resolution into the context, then
continue with `runNextStep` (the body of `runNextStep` above inlines exactly
this composition on its `.resolved` branch). -/
def handleStepSuccess (fuel : Nat) (t : Transaction) (r : StepResolution) : Transaction :=
  runNextStep fuel (mergeContext t r)

/-- The fuel every public entry point supplies to the `runNextStep` loop. -/
def transactionFuel (t : Transaction) : Nat := t.steps.length + 1

/-- The usage error for `execute()` without an `onError` callback. -/
def executeMessageNoOnError : String :=
  "You called `execute` before assigning an `onError` callback. This means that errors in steps will be silenced. Add an `onError` callback before calling `execute`."

/-- The usage error for `execute()` while a run is in progress. -/
def executeMessageInProgress : String :=
  "Transaction is already in progress. To resume the transaction, use the `resume` method instead of `execute`"

/-- `execute(context)`: the two synchronous guards, then store the context and
start the run loop. -/
def execute (t : Transaction) (context : List (String × Val)) : Except String Transaction :=
  if ¬ t.onErrorRegistered then Except.error executeMessageNoOnError
  else if t.currentStep.jsGeZero then Except.error executeMessageInProgress
  else Except.ok (runNextStep (transactionFuel t) { t with context := context })

/-- The synchronous-resume warning (also thrown). -/
def resumeWarning : String :=
  "You called `resolve` synchronously in an onError callback, which could produce an infinite loop. You should probably get user input before resuming the transaction -- or if you intend to restart it automatically, you should implement that inside of the Transaction class as an auto-retry param. If you do, only show this warning if auto-retry is not set to true."

/-- `this.callbacks.onResume && this.callbacks.onResume()`. -/
def fireOnResume (t : Transaction) : Transaction :=
  if t.onResumeRegistered then { t with trace := t.trace ++ [.onResumeCalled] } else t

/-- `resume(suppressWarning)`: warn-and-throw on a synchronous re-entrant
resume (unless the test sentinel is supplied), else fire `onResume` if
registered, decrement `currentStep` (`onResume` does not touch it), and
re-enter the run loop. -/
def resume (t : Transaction) (suppressWarning : String) : Except String Transaction :=
  if t.resumedBeforeNextTick ∧ suppressWarning ≠ "Yes this is in test code" then
    Except.error resumeWarning
  else
    Except.ok (runNextStep (transactionFuel t)
      { fireOnResume t with currentStep := t.currentStep.jsSubOne })

/-- A constructor argument element: a function, or a value whose `typeof` is
not `'function'`. -/
inductive StepsArgElem where
  | func (f : StepFn)
  | notAFunction

/-- The constructor argument: an array, or a non-array value (modelled by its
`JSON.stringify`). -/
inductive StepsArg where
  | notAnArray (json : String)
  | array (elems : List StepsArgElem)

/-- The index of the first non-function element, where the constructor's
`forEach` throws. -/
def firstNonFunction (elems : List StepsArgElem) : Option Nat :=
  elems.findIdx? (fun e => match e with | .func _ => false | .notAFunction => true)

/-- `new Transaction(steps)`: construction-time validation, then the initial
instance (`currentStep` unset, `callbacks = { onSpecificErrors: [] }`). -/
def newTransaction (steps : StepsArg) : Except String Transaction :=
  match steps with
  | .notAnArray json => Except.error ("Expected a list of functions, got " ++ json)
  | .array elems =>
      if elems.length ≤ 0 then Except.error "A transaction needs at least one step"
      else
        match firstNonFunction elems with
        | some i => Except.error (ordinal (i + 1) ++ " Transaction step is not a function")
        | none =>
            Except.ok
              { steps := elems.filterMap (fun e => match e with | .func f => some f | .notAFunction => none)
                onErrorRegistered := false
                onSuccessRegistered := false
                onResumeRegistered := false
                onSpecificErrors := []
                context := []
                currentStep := .undef
                resumedBeforeNextTick := false
                counts := List.replicate elems.length 0
                trace := [] }

/-- `onSpecificError(error, callback)`: append a `{pattern, callback}` entry;
the callback is identified by its registration index in the trace. -/
def onSpecificError (t : Transaction) (matcher : String → Bool) : Transaction :=
  { t with onSpecificErrors := t.onSpecificErrors ++ [matcher] }

/-! ## Trace helpers and concrete claim instances -/

/-- Is this event a synchronizer invocation? -/
def isSynchronizerEvent : GetterEvent → Bool
  | .synchronizerInvoked _ _ => true
  | _ => false

/-- The synchronizer invocations of a `get()` trace, in order. -/
def synchronizerEvents (tr : List GetterEvent) : List GetterEvent :=
  tr.filter isSynchronizerEvent

/-- The invocation events of `count` consecutive synchronizers starting at
registration index `idx`, each invoked with `value`. -/
def synchronizerInvocations (value : Val) : Nat → Nat → List GetterEvent
  | _, 0 => []
  | idx, count + 1 =>
      .synchronizerInvoked idx value :: synchronizerInvocations value (idx + 1) count

/-- C1's primary source: a promise rejecting with `new Error('X')`. -/
def c1PrimaryBehaviour : SourceBeh := .retPromise (.rej (mkError "X"))

/-- C1's configuration: the failing primary, one secondary rejecting with
`new Error('Y')`, no verifier, no synchronizers. -/
def c1Configuration : Configuration :=
  { primarySource := some c1PrimaryBehaviour
    secondarySources := [.retPromise (.rej (mkError "Y"))]
    verifier := none
    primarySourceSynchronizers := []
    ignoreSynchronizationErrors := false }

/-- C2's accepted value: the primary source resolves with it and there is no
verifier, so `get()` accepts it from the primary. -/
def c2AcceptedValue : Val := .str "primary value"

/-- C2's configuration: a succeeding primary and one registered synchronizer. -/
def c2Configuration : Configuration :=
  { primarySource := some (.retPromise (.ful c2AcceptedValue))
    secondarySources := []
    verifier := none
    primarySourceSynchronizers := [fun _ => .retPromise (.ful (.str "sync result"))]
    ignoreSynchronizationErrors := false }

/-- C2's amended-claim witness configuration: failing primary, one succeeding
secondary, two succeeding synchronizers. -/
def c2WitnessConfiguration : Configuration :=
  { primarySource := some (.retPromise (.rej (mkError "bad primary")))
    secondarySources := [.retPromise (.ful (.str "good stuff"))]
    verifier := none
    primarySourceSynchronizers :=
      [fun _ => .retPromise (.ful (.str "first")), fun _ => .retPromise (.ful (.str "second"))]
    ignoreSynchronizationErrors := false }

/-- C3's witness configuration: failing primary, secondaries #1 fails, #2
succeeds, #3 would succeed but must never be invoked. -/
def c3WitnessConfiguration : Configuration :=
  { primarySource := some (.retPromise (.rej (mkError "bad primary")))
    secondarySources :=
      [.retPromise (.rej (mkError "bad secondary #1")),
       .retPromise (.ful (.str "from secondary 2")),
       .retPromise (.ful (.str "from secondary 3"))]
    verifier := none
    primarySourceSynchronizers := []
    ignoreSynchronizationErrors := false }

/-- C7's witness configuration. -/
def c7WitnessConfiguration : Configuration :=
  { primarySource := some (.retPromise (.ful (.str "p")))
    secondarySources := []
    verifier := none
    primarySourceSynchronizers := []
    ignoreSynchronizationErrors := false }

/-- C4's five steps: steps 1, 2, 4, 5 always resolve with the mappings
`m1`, `m2`, `m4`, `m5`; step 3 rejects on its first invocation and resolves
with `m3` on later invocations (a stateful collaborator closure). -/
def c4Steps (m1 m2 m3 m4 m5 : List (String × Val)) : List StepFn :=
  [fun _ _ => .resolved (.obj m1),
   fun _ _ => .resolved (.obj m2),
   fun cnt _ => if cnt = 0 then .rejected "step 3 failed" else .resolved (.obj m3),
   fun _ _ => .resolved (.obj m4),
   fun _ _ => .resolved (.obj m5)]

/-- C4's transaction over those five steps, with `onError` and `onSuccess`
registered. -/
def c4Transaction (m1 m2 m3 m4 m5 : List (String × Val)) : Transaction :=
  { steps := c4Steps m1 m2 m3 m4 m5
    onErrorRegistered := true
    onSuccessRegistered := true
    onResumeRegistered := false
    onSpecificErrors := []
    context := []
    currentStep := .undef
    resumedBeforeNextTick := false
    counts := [0, 0, 0, 0, 0]
    trace := [] }

/-- C5's registered pattern: the string pattern equal to the *prefixed* error
message (as a string pattern it is wrapped in `^...$`, i.e. a full-string
match). -/
def c5Matcher : String → Bool := fun m => m == "Error in 1st step: step failure"

/-- C5's transaction: one step that rejects with `'step failure'`, with the
prefixed-message pattern registered. -/
def c5Transaction : Transaction :=
  { steps := [fun _ _ => .rejected "step failure"]
    onErrorRegistered := true
    onSuccessRegistered := false
    onResumeRegistered := false
    onSpecificErrors := [c5Matcher]
    context := []
    currentStep := .undef
    resumedBeforeNextTick := false
    counts := [0]
    trace := [] }

/-- C6's witness transaction: one failing step and two distinct patterns that
both match the raw failure message `'boom'`. -/
def c6WitnessTransaction : Transaction :=
  { steps := [fun _ _ => .rejected "boom"]
    onErrorRegistered := true
    onSuccessRegistered := false
    onResumeRegistered := false
    onSpecificErrors := [fun m => m == "boom", fun m => m.length == 4]
    context := []
    currentStep := .num 0
    resumedBeforeNextTick := false
    counts := [0]
    trace := [] }

/-- C9's witness transaction: a single always-succeeding step. -/
def c9WitnessTransaction : Transaction :=
  { steps := [fun _ _ => .resolved (.obj [])]
    onErrorRegistered := true
    onSuccessRegistered := true
    onResumeRegistered := false
    onSpecificErrors := []
    context := []
    currentStep := .undef
    resumedBeforeNextTick := false
    counts := [0]
    trace := [] }

/-- C9's witness transaction after its successful run. -/
def c9CompletedTransaction : Transaction :=
  runNextStep (transactionFuel c9WitnessTransaction)
    { c9WitnessTransaction with context := [] }

/-- C10's witness transaction: `execute()` has never been called
(`currentStep` unset). -/
def c10WitnessTransaction : Transaction :=
  { steps := [fun _ _ => .resolved (.obj [("a", .num 1)])]
    onErrorRegistered := true
    onSuccessRegistered := true
    onResumeRegistered := true
    onSpecificErrors := []
    context := []
    currentStep := .undef
    resumedBeforeNextTick := false
    counts := [0]
    trace := [] }

/-- Is this promise state a rejection? -/
def PromState.isRej : PromState → Bool
  | .rej _ => true
  | .ful _ => false

/-- Is this promise state a fulfilment? -/
def PromState.isFul : PromState → Bool
  | .ful _ => true
  | .rej _ => false

/-- Does the attempt pipeline reject for the source at position `i` of `l`? -/
def secondaryAttemptRejects (cfg : Configuration) (l : List SourceBeh) (i : Nat) : Bool :=
  match l.get? i with
  | some b => (attemptOutcome cfg b).isRej
  | none => false

/-- Does the attempt pipeline fulfil for the source at position `i` of `l`? -/
def secondaryAttemptFulfills (cfg : Configuration) (l : List SourceBeh) (i : Nat) : Bool :=
  match l.get? i with
  | some b => (attemptOutcome cfg b).isFul
  | none => false

/-! ## Theorems -/

set_option maxRecDepth 16384

/-- `nameError` maps rejections to rejections. -/
theorem nameError_rej (n : String) (e : JsError) :
    ∃ e', nameError n (.rej e) = .rej e' := by
  rcases e with ⟨nm, msg, sn⟩
  cases sn <;> exact ⟨_, rfl⟩

/-- Once a chain is fulfilled, the remaining secondary-source links are
skipped entirely. -/
theorem getFromSecondariesAux_ful (cfg : Configuration) (l : List SourceBeh) (idx : Nat)
    (v : Val) (st : RunState) :
    getFromSecondariesAux cfg l idx (.ful v) st = (.ful v, st) := by
  induction l generalizing idx with
  | nil => rfl
  | cons s rest ih => simp [getFromSecondariesAux, secondarySourceLink, ih]

/-- Once the quitter has latched, the remaining secondary-source links
re-throw immediately: no push, no invocation. -/
theorem getFromSecondariesAux_quit (cfg : Configuration) (l : List SourceBeh) (idx : Nat)
    (e : JsError) (st : RunState) (h : st.doQuit = true) :
    getFromSecondariesAux cfg l idx (.rej e) st = (.rej e, st) := by
  induction l generalizing idx with
  | nil => rfl
  | cons s rest ih => simp [getFromSecondariesAux, secondarySourceLink, h, ih]

/-- A synchronizer link never unsets the quit flag. -/
theorem synchronizerLink_doQuit (ignore : Bool) (value : Val) (idx : Nat)
    (sync : Val → SourceBeh) (p : PromState) (st : RunState) (h : st.doQuit = true) :
    (synchronizerLink ignore value idx sync p st).2.doQuit = true := by
  cases p with
  | ful w =>
      cases hn : nameError ("primarySourceSynchronizer function #" ++ toString (idx + 1))
          (assertIsPromise (sync value)) with
      | ful u => simp [synchronizerLink, hn, h]
      | rej e => cases ignore <;> simp [synchronizerLink, hn, h]
  | rej e =>
      cases hn : nameError ("primarySourceSynchronizer function #" ++ toString (idx + 1))
          (.rej e) with
      | ful u => simp [synchronizerLink, hn, h]
      | rej e' => cases ignore <;> simp [synchronizerLink, hn, h]

/-- The synchronization chain never unsets the quit flag. -/
theorem performSynchronizationAux_doQuit_mono (ignore : Bool) (value : Val)
    (l : List (Val → SourceBeh)) (idx : Nat) (p : PromState) (st : RunState)
    (h : st.doQuit = true) :
    (performSynchronizationAux ignore value l idx p st).2.doQuit = true := by
  induction l generalizing idx p st with
  | nil => exact h
  | cons sync rest ih =>
      rcases hl : synchronizerLink ignore value idx sync p st with ⟨p', st'⟩
      have h' : st'.doQuit = true := by
        have := synchronizerLink_doQuit ignore value idx sync p st h
        rw [hl] at this
        exact this
      simp only [performSynchronizationAux, hl]
      exact ih _ _ _ h'

/-- A synchronizer link only ever appends a `synchronizerInvoked` event:
`secondaryInvoked` events are never introduced. -/
theorem synchronizerLink_no_secondary (ignore : Bool) (value : Val) (idx : Nat)
    (sync : Val → SourceBeh) (p : PromState) (st : RunState) (j : Nat)
    (h : GetterEvent.secondaryInvoked j ∉ st.trace) :
    GetterEvent.secondaryInvoked j ∉ (synchronizerLink ignore value idx sync p st).2.trace := by
  cases p with
  | ful w =>
      cases hn : nameError ("primarySourceSynchronizer function #" ++ toString (idx + 1))
          (assertIsPromise (sync value)) with
      | ful u => simp [synchronizerLink, hn, h]
      | rej e => cases ignore <;> simp [synchronizerLink, hn, h]
  | rej e =>
      cases hn : nameError ("primarySourceSynchronizer function #" ++ toString (idx + 1))
          (.rej e) with
      | ful u => simp [synchronizerLink, hn, h]
      | rej e' => cases ignore <;> simp [synchronizerLink, hn, h]

/-- The synchronization chain never introduces a `secondaryInvoked` event. -/
theorem performSynchronizationAux_no_secondary (ignore : Bool) (value : Val)
    (l : List (Val → SourceBeh)) (idx : Nat) (p : PromState) (st : RunState) (j : Nat)
    (h : GetterEvent.secondaryInvoked j ∉ st.trace) :
    GetterEvent.secondaryInvoked j ∉
      (performSynchronizationAux ignore value l idx p st).2.trace := by
  induction l generalizing idx p st with
  | nil => exact h
  | cons sync rest ih =>
      rcases hl : synchronizerLink ignore value idx sync p st with ⟨p', st'⟩
      have h' : GetterEvent.secondaryInvoked j ∉ st'.trace := by
        have := synchronizerLink_no_secondary ignore value idx sync p st j h
        rw [hl] at this
        exact this
      simp only [performSynchronizationAux, hl]
      exact ih _ _ _ h'

/-- With `ignoreSynchronizationErrors` unset, a synchronization chain entered
rejected stays rejected. -/
theorem performSynchronizationAux_rej_false (value : Val) (l : List (Val → SourceBeh))
    (idx : Nat) (e : JsError) (st : RunState) :
    ∃ e' st', performSynchronizationAux false value l idx (.rej e) st = (.rej e', st') := by
  induction l generalizing idx e st with
  | nil => exact ⟨e, st, rfl⟩
  | cons sync rest ih =>
      obtain ⟨e2, hn⟩ := nameError_rej
        ("primarySourceSynchronizer function #" ++ toString (idx + 1)) e
      simp only [performSynchronizationAux, synchronizerLink, hn, if_neg, Bool.false_eq_true,
        not_false_eq_true, if_false]
      exact ih _ _ _

/-- If a synchronization chain entered fulfilled ends fulfilled, the chain
resolved with the originally accepted value, every synchronizer was invoked
with that value in registration order, and nothing else in the run state
changed. -/
theorem performSynchronizationAux_ful_trace (ignore : Bool) (value : Val)
    (l : List (Val → SourceBeh)) (idx : Nat) (st : RunState) (u : Val)
    (h : (performSynchronizationAux ignore value l idx (.ful value) st).1 = .ful u) :
    u = value ∧
    performSynchronizationAux ignore value l idx (.ful value) st =
      (.ful value, { st with trace := st.trace ++ synchronizerInvocations value idx l.length }) := by
  induction l generalizing idx st with
  | nil =>
      simp only [performSynchronizationAux] at h ⊢
      cases h
      exact ⟨rfl, by simp [synchronizerInvocations]⟩
  | cons sync rest ih =>
      cases hn : nameError ("primarySourceSynchronizer function #" ++ toString (idx + 1))
          (assertIsPromise (sync value)) with
      | ful w =>
          simp only [performSynchronizationAux, synchronizerLink, hn] at h ⊢
          obtain ⟨hu, hres⟩ := ih (idx + 1) _ h
          refine ⟨hu, ?_⟩
          rw [hres]
          simp [synchronizerInvocations, List.append_assoc]
      | rej e2 =>
          cases ignore with
          | true =>
              simp only [performSynchronizationAux, synchronizerLink, hn,
                eq_self_iff_true, if_true] at h ⊢
              obtain ⟨hu, hres⟩ := ih (idx + 1) _ h
              refine ⟨hu, ?_⟩
              rw [hres]
              simp [synchronizerInvocations, List.append_assoc]
          | false =>
              exfalso
              obtain ⟨e', st', hres⟩ := performSynchronizationAux_rej_false value rest (idx + 1)
                e2 { st with doQuit := true,
                             trace := st.trace ++ [.synchronizerInvoked idx value] }
              simp only [performSynchronizationAux, synchronizerLink, hn,
                Bool.false_eq_true, if_false, hres] at h
              cases h

/-- If a synchronization chain entered fulfilled ends rejected, the quit flag
has been latched. -/
theorem performSynchronizationAux_ful_rej_doQuit (ignore : Bool) (value : Val)
    (l : List (Val → SourceBeh)) (idx : Nat) (st : RunState) (e' : JsError)
    (h : (performSynchronizationAux ignore value l idx (.ful value) st).1 = .rej e') :
    (performSynchronizationAux ignore value l idx (.ful value) st).2.doQuit = true := by
  induction l generalizing idx st with
  | nil => exact PromState.noConfusion h
  | cons sync rest ih =>
      cases hn : nameError ("primarySourceSynchronizer function #" ++ toString (idx + 1))
          (assertIsPromise (sync value)) with
      | ful w =>
          simp only [performSynchronizationAux, synchronizerLink, hn] at h ⊢
          exact ih (idx + 1) _ h
      | rej e2 =>
          cases ignore with
          | true =>
              simp only [performSynchronizationAux, synchronizerLink, hn,
                eq_self_iff_true, if_true] at h ⊢
              exact ih (idx + 1) _ h
          | false =>
              simp only [performSynchronizationAux, synchronizerLink, hn,
                Bool.false_eq_true, if_false] at h ⊢
              exact performSynchronizationAux_doQuit_mono false value rest (idx + 1) _ _ rfl

/-- `performSynchronizationWithPrimary` resolves only with the originally
accepted value, after invoking every synchronizer with it in order. -/
theorem performSynchronizationWithPrimary_ful (cfg : Configuration) (value : Val)
    (st : RunState) (u : Val)
    (h : (performSynchronizationWithPrimary cfg value st).1 = .ful u) :
    u = value ∧
    performSynchronizationWithPrimary cfg value st =
      (.ful value, { st with trace := st.trace ++
        synchronizerInvocations value 0 cfg.primarySourceSynchronizers.length }) :=
  performSynchronizationAux_ful_trace _ _ _ _ _ _ h

/-- When `performSynchronizationWithPrimary` rejects, the quit flag is
latched. -/
theorem performSynchronizationWithPrimary_rej_doQuit (cfg : Configuration) (value : Val)
    (st : RunState) (e' : JsError)
    (h : (performSynchronizationWithPrimary cfg value st).1 = .rej e') :
    (performSynchronizationWithPrimary cfg value st).2.doQuit = true :=
  performSynchronizationAux_ful_rej_doQuit _ _ _ _ _ _ h

/-- `performSynchronizationWithPrimary` never adds a `secondaryInvoked`
event. -/
theorem performSynchronizationWithPrimary_no_secondary (cfg : Configuration) (value : Val)
    (st : RunState) (j : Nat) (h : GetterEvent.secondaryInvoked j ∉ st.trace) :
    GetterEvent.secondaryInvoked j ∉
      (performSynchronizationWithPrimary cfg value st).2.trace :=
  performSynchronizationAux_no_secondary _ _ _ _ _ _ _ h

/-- One secondary link entered rejected with the quitter unlatched: either the
attempt fails and the link re-rejects after recording the upstream failure and
invoking the source, or the attempt succeeds with some value and the link
hands over to the synchronization chain. -/
theorem secondarySourceLink_cases (cfg : Configuration) (idx : Nat) (src : SourceBeh)
    (e : JsError) (st : RunState) (hq : st.doQuit = false) :
    (∃ eIn e2, attemptOutcome cfg src = .rej eIn ∧
      secondarySourceLink cfg idx src (.rej e) st =
        (.rej e2, { st with results := st.results ++ [.failure e],
                            trace := st.trace ++ [.secondaryInvoked idx] })) ∨
    (∃ w, attemptOutcome cfg src = .ful w ∧
      secondarySourceLink cfg idx src (.rej e) st =
        performSynchronizationWithPrimary cfg w
          { st with results := st.results ++ [.failure e] ++
              [.success ("secondary source #" ++ toString (idx + 1)) (jsonOfVal w)],
                    trace := st.trace ++ [.secondaryInvoked idx] }) := by
  cases hat : attemptOutcome cfg src with
  | ful w =>
      right
      refine ⟨w, rfl, ?_⟩
      have hat' : verifyValue cfg.verifier (assertIsPromise src) = .ful w := hat
      simp [secondarySourceLink, hq, hat', nameError]
  | rej e2 =>
      left
      have hat' : verifyValue cfg.verifier (assertIsPromise src) = .rej e2 := hat
      obtain ⟨e2', hn⟩ := nameError_rej ("secondary source #" ++ toString (idx + 1)) e2
      exact ⟨e2, e2', rfl, by simp [secondarySourceLink, hq, hat', hn]⟩

/-- `synchronizerEvents` distributes over append. -/
theorem synchronizerEvents_append (a b : List GetterEvent) :
    synchronizerEvents (a ++ b) = synchronizerEvents a ++ synchronizerEvents b := by
  simp [synchronizerEvents, List.filter_append]

/-- Every event of `synchronizerInvocations` is a synchronizer event. -/
theorem synchronizerEvents_invocations (value : Val) (idx count : Nat) :
    synchronizerEvents (synchronizerInvocations value idx count) =
      synchronizerInvocations value idx count := by
  induction count generalizing idx with
  | zero => rfl
  | succ n ih =>
      simp only [synchronizerInvocations]
      rw [show synchronizerEvents (GetterEvent.synchronizerInvoked idx value ::
            synchronizerInvocations value (idx + 1) n) =
          GetterEvent.synchronizerInvoked idx value ::
            synchronizerEvents (synchronizerInvocations value (idx + 1) n) from rfl, ih]

/-- `secondaryInvoked` events never occur among synchronizer invocations. -/
theorem secondaryInvoked_not_mem_invocations (value : Val) (idx count j : Nat) :
    GetterEvent.secondaryInvoked j ∉ synchronizerInvocations value idx count := by
  induction count generalizing idx with
  | zero => simp [synchronizerInvocations]
  | succ n ih => simp [synchronizerInvocations, ih]

/-- If the fallback chain over the secondaries resolves with `v`, its trace
gains exactly one full round of synchronizer invocations, each with `v`. -/
theorem getFromSecondariesAux_resolve_syncEvents (cfg : Configuration) (l : List SourceBeh)
    (idx : Nat) (e : JsError) (st : RunState) (v : Val)
    (hq : st.doQuit = false)
    (h : (getFromSecondariesAux cfg l idx (.rej e) st).1 = .ful v) :
    synchronizerEvents (getFromSecondariesAux cfg l idx (.rej e) st).2.trace =
      synchronizerEvents st.trace ++
        synchronizerInvocations v 0 cfg.primarySourceSynchronizers.length := by
  induction l generalizing idx e st with
  | nil => exact PromState.noConfusion h
  | cons src rest ih =>
      rcases secondarySourceLink_cases cfg idx src e st hq with ⟨eIn, e2, _, hlink⟩ | ⟨w, hat, hlink⟩
      · simp only [getFromSecondariesAux, hlink] at h ⊢
        rw [ih (idx + 1) e2
          { st with results := st.results ++ [.failure e],
                    trace := st.trace ++ [.secondaryInvoked idx] } hq h]
        show synchronizerEvents (st.trace ++ [GetterEvent.secondaryInvoked idx]) ++
            synchronizerInvocations v 0 cfg.primarySourceSynchronizers.length =
          synchronizerEvents st.trace ++
            synchronizerInvocations v 0 cfg.primarySourceSynchronizers.length
        rw [synchronizerEvents_append]
        simp [synchronizerEvents, isSynchronizerEvent]
      · simp only [getFromSecondariesAux, hlink] at h ⊢
        cases hp : (performSynchronizationWithPrimary cfg w
            { st with results := st.results ++ [.failure e] ++
                [.success ("secondary source #" ++ toString (idx + 1)) (jsonOfVal w)],
                      trace := st.trace ++ [.secondaryInvoked idx] }).1 with
        | ful u =>
            obtain ⟨hu, hperf⟩ := performSynchronizationWithPrimary_ful cfg w _ u hp
            subst hu
            rw [hperf] at h ⊢
            rw [getFromSecondariesAux_ful] at h ⊢
            cases h
            show synchronizerEvents (st.trace ++ [GetterEvent.secondaryInvoked idx] ++
                synchronizerInvocations v 0 cfg.primarySourceSynchronizers.length) =
              synchronizerEvents st.trace ++
                synchronizerInvocations v 0 cfg.primarySourceSynchronizers.length
            rw [synchronizerEvents_append, synchronizerEvents_append,
              synchronizerEvents_invocations]
            simp [synchronizerEvents, isSynchronizerEvent]
        | rej e3 =>
            exfalso
            have hdq := performSynchronizationWithPrimary_rej_doQuit cfg w _ e3 hp
            cases hperf : performSynchronizationWithPrimary cfg w
                { st with results := st.results ++ [.failure e] ++
                    [.success ("secondary source #" ++ toString (idx + 1)) (jsonOfVal w)],
                          trace := st.trace ++ [.secondaryInvoked idx] } with
            | mk pp pst =>
                rw [hperf] at h hp hdq
                simp only at hp hdq
                subst hp
                rw [getFromSecondariesAux_quit cfg rest (idx + 1) e3 pst hdq] at h
                exact PromState.noConfusion h

/-- If among the remaining secondaries the first `m` attempts fail and attempt
`m` succeeds, no secondary source at a position past `m` is ever invoked. -/
theorem getFromSecondariesAux_short_circuit (cfg : Configuration) (l : List SourceBeh)
    (idx : Nat) (e : JsError) (st : RunState) (m j : Nat)
    (hq : st.doQuit = false)
    (hm : m < l.length)
    (hfail : ∀ i, i < m → secondaryAttemptRejects cfg l i = true)
    (hsucc : secondaryAttemptFulfills cfg l m = true)
    (hj : idx + m < j)
    (hnotin : GetterEvent.secondaryInvoked j ∉ st.trace) :
    GetterEvent.secondaryInvoked j ∉ (getFromSecondariesAux cfg l idx (.rej e) st).2.trace := by
  induction l generalizing idx e st m with
  | nil => simp at hm
  | cons src rest ih =>
      have hjidx : j ≠ idx := by omega
      cases m with
      | zero =>
          obtain ⟨w, hat⟩ : ∃ w, attemptOutcome cfg src = .ful w := by
            simp only [secondaryAttemptFulfills, List.get?] at hsucc
            cases hatt : attemptOutcome cfg src with
            | ful w => exact ⟨w, rfl⟩
            | rej e2 => rw [hatt] at hsucc; exact Bool.noConfusion hsucc
          rcases secondarySourceLink_cases cfg idx src e st hq with ⟨eIn, e2, hatIn, hlink⟩ | ⟨w', hat', hlink⟩
          · rw [hat] at hatIn
            exact PromState.noConfusion hatIn
          · simp only [getFromSecondariesAux, hlink]
            have hst2 : GetterEvent.secondaryInvoked j ∉
                st.trace ++ [GetterEvent.secondaryInvoked idx] := by
              simp [hnotin, hjidx]
            cases hp : (performSynchronizationWithPrimary cfg w'
                { st with results := st.results ++ [.failure e] ++
                    [.success ("secondary source #" ++ toString (idx + 1)) (jsonOfVal w')],
                          trace := st.trace ++ [.secondaryInvoked idx] }).1 with
            | ful u =>
                obtain ⟨hu, hperf⟩ := performSynchronizationWithPrimary_ful cfg w' _ u hp
                rw [hperf, getFromSecondariesAux_ful]
                show GetterEvent.secondaryInvoked j ∉
                  st.trace ++ [GetterEvent.secondaryInvoked idx] ++
                    synchronizerInvocations w' 0 cfg.primarySourceSynchronizers.length
                simp [hnotin, hjidx, secondaryInvoked_not_mem_invocations]
            | rej e3 =>
                have hdq := performSynchronizationWithPrimary_rej_doQuit cfg w' _ e3 hp
                have hns := performSynchronizationWithPrimary_no_secondary cfg w'
                  { st with results := st.results ++ [.failure e] ++
                      [.success ("secondary source #" ++ toString (idx + 1)) (jsonOfVal w')],
                            trace := st.trace ++ [.secondaryInvoked idx] } j hst2
                cases hperf : performSynchronizationWithPrimary cfg w'
                    { st with results := st.results ++ [.failure e] ++
                        [.success ("secondary source #" ++ toString (idx + 1)) (jsonOfVal w')],
                              trace := st.trace ++ [.secondaryInvoked idx] } with
                | mk pp pst =>
                    rw [hperf] at hp hdq hns
                    simp only at hp hdq hns
                    subst hp
                    rw [getFromSecondariesAux_quit cfg rest (idx + 1) e3 pst hdq]
                    exact hns
      | succ m' =>
          have hrej0 : secondaryAttemptRejects cfg (src :: rest) 0 = true :=
            hfail 0 (Nat.succ_pos m')
          obtain ⟨e2, hat⟩ : ∃ e2, attemptOutcome cfg src = .rej e2 := by
            simp only [secondaryAttemptRejects, List.get?] at hrej0
            cases hatt : attemptOutcome cfg src with
            | ful w => rw [hatt] at hrej0; exact Bool.noConfusion hrej0
            | rej e2 => exact ⟨e2, rfl⟩
          rcases secondarySourceLink_cases cfg idx src e st hq with ⟨eIn, e3, hatIn, hlink⟩ | ⟨w, hat', hlink⟩
          · simp only [getFromSecondariesAux, hlink]
            refine ih (idx + 1) e3 _ m' hq (Nat.lt_of_succ_lt_succ hm) ?_ ?_ (by omega) ?_
            · intro i hi
              have := hfail (i + 1) (Nat.succ_lt_succ hi)
              simpa [secondaryAttemptRejects] using this
            · simpa [secondaryAttemptFulfills] using hsucc
            · simp [hnotin, hjidx]
          · rw [hat'] at hat
            exact PromState.noConfusion hat

/-- C1: with the primary rejecting with `Error('X')`, a single secondary
rejecting with `Error('Y')` and no further sources, `get()` rejects with the
composite error whose message is exactly
`"The Really Determined Property Getter has failed.\n  - primary source failed
because it was rejected with 'Error: X'\n  - secondary source #1 failed
because it was rejected with 'Error: Y'\n"` — one line per recorded attempt,
in chronological order, byte for byte. -/
theorem c1_composite_error_message :
    ReallyDeterminedPropertyGetter.get ⟨c1Configuration, false⟩ =
      Except.ok (runGet c1Configuration c1PrimaryBehaviour, ⟨c1Configuration, false⟩) ∧
    (runGet c1Configuration c1PrimaryBehaviour).1 =
      .rej (mkError ("The Really Determined Property Getter has failed.\n" ++
        "  - primary source failed because it was rejected with 'Error: X'\n" ++
        "  - secondary source #1 failed because it was rejected with 'Error: Y'\n")) := by
  exact ⟨rfl, by decide⟩

/-- C2 counterexample: in a configuration with one registered synchronizer
whose primary source resolves (and is accepted), `get()` resolves with the
primary's value but the run's trace contains only the primary invocation — the
synchronizer is never invoked, contradicting the claim that synchronizers run
"whether the value came from the primary source or from a secondary source". -/
theorem c2_counterexample :
    c2Configuration.primarySourceSynchronizers.length = 1 ∧
    (runGet c2Configuration (.retPromise (.ful c2AcceptedValue))).1 = .ful c2AcceptedValue ∧
    (runGet c2Configuration (.retPromise (.ful c2AcceptedValue))).2.trace =
      [.primaryInvoked] := by
  exact ⟨rfl, rfl, rfl⟩

/-- C2 amended: whenever `get()` accepts a value that came from a *secondary*
source (the primary attempt failed), every registered synchronizer is invoked
with that value, sequentially and in registration order.  (The original
claim's "whether it came from the primary source or from a secondary source"
is refuted by `c2_counterexample`: on primary acceptance no synchronizer
runs.) -/
theorem c2_amended_synchronizer_invocations (cfg : Configuration) (primary : SourceBeh)
    (v : Val) (e : JsError)
    (hp : primaryAttempt cfg primary = .rej e)
    (h : (runGet cfg primary).1 = .ful v) :
    synchronizerEvents (runGet cfg primary).2.trace =
      synchronizerInvocations v 0 cfg.primarySourceSynchronizers.length := by
  simp only [runGet, hp, getFromSecondaries] at h ⊢
  cases hfb : (getFromSecondariesAux cfg cfg.secondarySources 0 (.rej e)
      ⟨[], false, [.primaryInvoked]⟩).1 with
  | ful w =>
      have hsync := getFromSecondariesAux_resolve_syncEvents cfg cfg.secondarySources 0 e
        ⟨[], false, [.primaryInvoked]⟩ w rfl hfb
      cases hfull : getFromSecondariesAux cfg cfg.secondarySources 0 (.rej e)
          ⟨[], false, [.primaryInvoked]⟩ with
      | mk pp pst =>
          rw [hfull] at hfb hsync h
          simp only at hfb hsync
          subst hfb
          simp only [handleFinalError] at h ⊢
          cases h
          rw [hsync]
          rfl
  | rej e2 =>
      exfalso
      cases hfull : getFromSecondariesAux cfg cfg.secondarySources 0 (.rej e)
          ⟨[], false, [.primaryInvoked]⟩ with
      | mk pp pst =>
          rw [hfull] at hfb h
          simp only at hfb
          subst hfb
          simp only [handleFinalError] at h
          exact PromState.noConfusion h

/-- C2 amended, witness: failing primary, one succeeding secondary, two
synchronizers — both are invoked, in order, with the accepted value. -/
theorem c2_amended_witness :
    synchronizerEvents (runGet c2WitnessConfiguration
        (.retPromise (.rej (mkError "bad primary")))).2.trace =
      synchronizerInvocations (.str "good stuff") 0
        c2WitnessConfiguration.primarySourceSynchronizers.length :=
  c2_amended_synchronizer_invocations c2WitnessConfiguration
    (.retPromise (.rej (mkError "bad primary"))) (.str "good stuff")
    ⟨"Error", "it was rejected with 'Error: bad primary'", some "primary source"⟩
    (by decide) (by decide)

/-- C3: in every `get()` run whose secondary sources 1..k-1 fail (rejection,
verification failure or non-promise return) while source k resolves with a
value that passes verification, the source functions at positions k+1..N are
never invoked (0-based indexes here: attempts `0..k-1` fail, attempt `k`
succeeds, no `secondaryInvoked j` event with `j > k` occurs). -/
theorem c3_short_circuit (cfg : Configuration) (primary : SourceBeh) (k : Nat)
    (hk : k < cfg.secondarySources.length)
    (hfail : ∀ i, i < k → secondaryAttemptRejects cfg cfg.secondarySources i = true)
    (hsucc : secondaryAttemptFulfills cfg cfg.secondarySources k = true) :
    ∀ j, k < j → GetterEvent.secondaryInvoked j ∉ (runGet cfg primary).2.trace := by
  intro j hj
  cases hpa : primaryAttempt cfg primary with
  | ful v =>
      simp only [runGet, hpa, handleFinalError]
      simp
  | rej e =>
      simp only [runGet, hpa, getFromSecondaries]
      have hbase := getFromSecondariesAux_short_circuit cfg cfg.secondarySources 0 e
        ⟨[], false, [.primaryInvoked]⟩ k j rfl hk hfail hsucc (by omega) (by simp)
      cases hfull : getFromSecondariesAux cfg cfg.secondarySources 0 (.rej e)
          ⟨[], false, [.primaryInvoked]⟩ with
      | mk pp pst =>
          rw [hfull] at hbase
          cases pp with
          | ful w => simpa [handleFinalError] using hbase
          | rej e2 => simpa [handleFinalError] using hbase

/-- C3 witness: with secondary #1 failing and #2 succeeding, secondary #3
(0-based index 2) is never invoked. -/
theorem c3_witness :
    GetterEvent.secondaryInvoked 2 ∉
      (runGet c3WitnessConfiguration (.retPromise (.rej (mkError "bad primary")))).2.trace :=
  c3_short_circuit c3WitnessConfiguration (.retPromise (.rej (mkError "bad primary"))) 1
    (by decide) (by decide) (by decide) 2 (by decide)

/-- C8: `new Transaction([])` fails at construction with
`'A transaction needs at least one step'` (which contains the words
`"needs at least one step"`), and a list whose third element is not callable
fails identifying the offending element by its 1-based ordinal position (the
3rd). -/
theorem c8_constructor_validation (f1 f2 f4 : StepFn) :
    newTransaction (.array []) = Except.error "A transaction needs at least one step" ∧
    "A transaction needs at least one step" = "A transaction " ++ "needs at least one step" ∧
    newTransaction (.array [.func f1, .func f2, .notAFunction, .func f4]) =
      Except.error "3rd Transaction step is not a function" ∧
    "3rd Transaction step is not a function" = ordinal 3 ++ " Transaction step is not a function" := by
  exact ⟨rfl, rfl, rfl, by decide⟩

/-- C4: with five steps where step 3 fails on its first invocation,
`execute()` invokes steps 1–3 (trace indexes 0–2) and stops at the `onError`
dispatch; `resume()` re-invokes step 3 (index 2, not step 4) with the context
merged through steps 1–2 exactly once, and on its success continues through
steps 4 and 5; the context seen by step 4 (index 3) is the initial context
shallow-merged, in step order, with `m1`, `m2`, `m3` exactly once — the failed
attempt contributed no merge. -/
theorem c4_step_resumption (c0 m1 m2 m3 m4 m5 : List (String × Val)) :
    ((execute (c4Transaction m1 m2 m3 m4 m5) c0).bind (fun t1 =>
        (resume t1 "").map (fun t2 => (t1.trace, t2.trace)))) =
      Except.ok
        ([TransactionEvent.stepInvoked 0 c0,
          .stepInvoked 1 (jsAssign c0 m1),
          .stepInvoked 2 (jsAssign (jsAssign c0 m1) m2),
          .onErrorCalled "Error in 3rd step: step 3 failed"],
         [TransactionEvent.stepInvoked 0 c0,
          .stepInvoked 1 (jsAssign c0 m1),
          .stepInvoked 2 (jsAssign (jsAssign c0 m1) m2),
          .onErrorCalled "Error in 3rd step: step 3 failed",
          .stepInvoked 2 (jsAssign (jsAssign c0 m1) m2),
          .stepInvoked 3 (jsAssign (jsAssign (jsAssign c0 m1) m2) m3),
          .stepInvoked 4 (jsAssign (jsAssign (jsAssign (jsAssign c0 m1) m2) m3) m4),
          .onSuccessCalled]) := by
  rfl

/-- C5 counterexample: the registered pattern is (as a string pattern, hence a
full-string regex) exactly the *prefixed* message
`'Error in 1st step: step failure'`; were patterns tested against the prefixed
message, this specific callback would fire and `onError` would not.  On the
code the step failure produces only the general `onError` invocation: patterns
are tested against the message before the `Error in <label>: ` prefix is
applied. -/
theorem c5_counterexample :
    c5Transaction.onSpecificErrors = [c5Matcher] ∧
    c5Matcher "Error in 1st step: step failure" = true ∧
    (execute c5Transaction []).map Transaction.trace =
      Except.ok [TransactionEvent.stepInvoked 0 [],
        .onErrorCalled "Error in 1st step: step failure"] := by
  exact ⟨rfl, by decide, rfl⟩

/-- A list whose `isEmpty` is `true` is `[]`. -/
theorem isEmpty_true_eq_nil {α : Type} (l : List α) (h : l.isEmpty = true) : l = [] := by
  cases l with
  | nil => rfl
  | cons a as => exact Bool.noConfusion h

/-- Membership in the collected specific-error callback indexes: index `k`
is collected exactly when the pattern registered at offset `k - start`
matches the message. -/
theorem mem_collectSpecificErrorCallbacks (l : List (String → Bool)) (start k : Nat)
    (msg : String) :
    k ∈ collectSpecificErrorCallbacks l start msg ↔
      ∃ i f, k = start + i ∧ l.get? i = some f ∧ f msg = true := by
  induction l generalizing start with
  | nil => simp [collectSpecificErrorCallbacks]
  | cons pat rest ih =>
      simp only [collectSpecificErrorCallbacks, List.mem_append]
      constructor
      · rintro (hin | hin)
        · cases hpm : pat msg with
          | true =>
              rw [hpm] at hin
              simp at hin
              exact ⟨0, pat, by omega, rfl, hpm⟩
          | false =>
              rw [hpm] at hin
              simp at hin
        · obtain ⟨i, f, hk, hget, hf⟩ := (ih (start + 1)).mp hin
          exact ⟨i + 1, f, by omega, by simpa using hget, hf⟩
      · rintro ⟨i, f, hk, hget, hf⟩
        cases i with
        | zero =>
            simp only [List.get?] at hget
            cases hget
            left
            simp [hf, hk]
        | succ i =>
            right
            exact (ih (start + 1)).mpr ⟨i, f, by omega, by simpa using hget, hf⟩

/-- If no registered pattern matches, nothing is collected. -/
theorem collectSpecificErrorCallbacks_nil (l : List (String → Bool)) (start : Nat)
    (msg : String) (h : ∀ f ∈ l, f msg = false) :
    collectSpecificErrorCallbacks l start msg = [] := by
  induction l generalizing start with
  | nil => rfl
  | cons pat rest ih =>
      have hp : pat msg = false := h pat (by simp)
      simp [collectSpecificErrorCallbacks, hp,
        ih (start + 1) (fun f hf => h f (by simp [hf]))]

/-- C5 amended: each `onSpecificError` pattern is tested against the error
message *before* the `Error in <label>: ` prefix is applied (for a string
pattern, as the full-string regex `^...$`); the callbacks selected this way
then receive the error carrying the prefixed message.  (The original claim's
"after it has been prefixed" is refuted by `c5_counterexample`.)  Here: the
specific callback at registration index `k` fires (receiving the prefixed
message) exactly when its matcher accepts the raw message. -/
theorem c5_amended_unprefixed_dispatch (t : Transaction) (msg : String) (k : Nat) :
    TransactionEvent.onSpecificErrorCalled k
        ("Error in " ++ currentStepText t ++ ": " ++ msg) ∈ stepErrorEvents t msg ↔
      ∃ f, t.onSpecificErrors.get? k = some f ∧ f msg = true := by
  have hmem : k ∈ findErrorCallbackHits t msg ↔
      ∃ f, t.onSpecificErrors.get? k = some f ∧ f msg = true := by
    rw [findErrorCallbackHits, mem_collectSpecificErrorCallbacks]
    constructor
    · rintro ⟨i, f, hk, hget, hf⟩
      refine ⟨f, ?_, hf⟩
      have : i = k := by omega
      rwa [this] at hget
    · rintro ⟨f, hget, hf⟩
      exact ⟨k, f, by omega, hget, hf⟩
  rw [← hmem]
  unfold stepErrorEvents
  cases hE : (findErrorCallbackHits t msg).isEmpty with
  | true =>
      have hE' := isEmpty_true_eq_nil _ hE
      simp [hE']
  | false =>
      simp only [hE, Bool.false_eq_true, if_false, List.mem_map]
      constructor
      · rintro ⟨i, hi, heq⟩
        injection heq with h1 h2
        subst h1
        exact hi
      · intro hk
        exact ⟨k, hk, rfl⟩

/-- C5 amended, witness: a matcher equal to the raw message fires at the
prefixed message. -/
theorem c5_amended_witness :
    TransactionEvent.onSpecificErrorCalled 0
        ("Error in " ++ currentStepText c6WitnessTransaction ++ ": " ++ "boom") ∈
      stepErrorEvents c6WitnessTransaction "boom" ↔
    (∃ f, c6WitnessTransaction.onSpecificErrors.get? 0 = some f ∧ f "boom" = true) :=
  c5_amended_unprefixed_dispatch c6WitnessTransaction "boom" 0

/-- C6: on a step failure, if two (or more) registered `onSpecificError`
patterns match the failure's (raw) message, every matching callback is
invoked with the error (carrying the prefixed message) and the general
`onError` callback is not invoked; if no pattern matches, only `onError` is
invoked. -/
theorem c6_error_routing (t : Transaction) (msg : String) :
    ((∃ i j fi fj, i ≠ j ∧ t.onSpecificErrors.get? i = some fi ∧
        t.onSpecificErrors.get? j = some fj ∧ fi msg = true ∧ fj msg = true) →
      (∀ k f, t.onSpecificErrors.get? k = some f → f msg = true →
        TransactionEvent.onSpecificErrorCalled k
          ("Error in " ++ currentStepText t ++ ": " ++ msg) ∈ stepErrorEvents t msg) ∧
      (∀ m, TransactionEvent.onErrorCalled m ∉ stepErrorEvents t msg)) ∧
    ((∀ f ∈ t.onSpecificErrors, f msg = false) →
      stepErrorEvents t msg =
        [.onErrorCalled ("Error in " ++ currentStepText t ++ ": " ++ msg)]) := by
  constructor
  · rintro ⟨i, j, fi, fj, hij, hgi, hgj, hfi, hfj⟩
    have hiMem : i ∈ findErrorCallbackHits t msg :=
      (mem_collectSpecificErrorCallbacks _ 0 i msg).mpr ⟨i, fi, by omega, hgi, hfi⟩
    have hne : (findErrorCallbackHits t msg).isEmpty = false := by
      cases hE : (findErrorCallbackHits t msg).isEmpty with
      | true => rw [isEmpty_true_eq_nil _ hE] at hiMem; simp at hiMem
      | false => rfl
    constructor
    · intro k f hget hf
      have hkMem : k ∈ findErrorCallbackHits t msg :=
        (mem_collectSpecificErrorCallbacks _ 0 k msg).mpr ⟨k, f, by omega, hget, hf⟩
      unfold stepErrorEvents
      simp only [hne, Bool.false_eq_true, if_false, List.mem_map]
      exact ⟨k, hkMem, rfl⟩
    · intro m
      unfold stepErrorEvents
      simp [hne]
  · intro hall
    unfold stepErrorEvents findErrorCallbackHits
    rw [collectSpecificErrorCallbacks_nil _ _ _ hall]
    rfl

/-- C6 witness: two distinct patterns both matching the raw message `'boom'`:
both specific callbacks fire (receiving the prefixed message) and `onError`
does not. -/
theorem c6_witness :
    TransactionEvent.onSpecificErrorCalled 0
        ("Error in " ++ currentStepText c6WitnessTransaction ++ ": " ++ "boom") ∈
      stepErrorEvents c6WitnessTransaction "boom" ∧
    TransactionEvent.onSpecificErrorCalled 1
        ("Error in " ++ currentStepText c6WitnessTransaction ++ ": " ++ "boom") ∈
      stepErrorEvents c6WitnessTransaction "boom" ∧
    (∀ m, TransactionEvent.onErrorCalled m ∉ stepErrorEvents c6WitnessTransaction "boom") := by
  have h := (c6_error_routing c6WitnessTransaction "boom").1
    ⟨0, 1, (fun m => m == "boom"), (fun m => m.length == 4),
      by decide, rfl, rfl, by decide, by decide⟩
  exact ⟨h.1 0 (fun m => m == "boom") rfl (by decide),
    h.1 1 (fun m => m.length == 4) rfl (by decide), h.2⟩

/-- C7: calling `get()` while a previous call on the same instance has not
settled raises the synchronous usage error whose message begins with
`` `get` was called again before the first call to `get` completed ``; once a
call has settled, the instance's `getInProgress` is `false` again, and a
subsequent `get()` is permitted and performs exactly the same fresh run
(fresh error ledger, fresh early-exit state — `runGet` starts from
`results = []`, `doQuit = false` by definition). -/
theorem c7_reentrancy_and_reuse (cfg : Configuration) (primary : SourceBeh)
    (hp : cfg.primarySource = some primary) :
    ReallyDeterminedPropertyGetter.get ⟨cfg, true⟩ = Except.error (mkError getAgainMessage) ∧
    getAgainMessage =
      "`get` was called again before the first call to `get` completed" ++
        ". This will produce unexpected behavior and is not allowed." ∧
    ReallyDeterminedPropertyGetter.get ⟨cfg, false⟩ =
      Except.ok (runGet cfg primary, ⟨cfg, false⟩) ∧
    (∀ r inst', ReallyDeterminedPropertyGetter.get ⟨cfg, false⟩ = Except.ok (r, inst') →
      inst'.getInProgress = false ∧
      ReallyDeterminedPropertyGetter.get inst' = Except.ok (runGet cfg primary, inst')) := by
  have hok : ReallyDeterminedPropertyGetter.get ⟨cfg, false⟩ =
      Except.ok (runGet cfg primary, ⟨cfg, false⟩) := by
    simp [ReallyDeterminedPropertyGetter.get, hp]
  refine ⟨rfl, rfl, hok, ?_⟩
  intro r inst' h
  rw [hok] at h
  injection h with h
  injection h with hr hi
  rw [← hi]
  exact ⟨rfl, hok⟩

/-- C7 witness: the concrete configuration, mid-flight and settled. -/
theorem c7_witness :
    ReallyDeterminedPropertyGetter.get ⟨c7WitnessConfiguration, true⟩ =
      Except.error (mkError getAgainMessage) ∧
    ReallyDeterminedPropertyGetter.get ⟨c7WitnessConfiguration, false⟩ =
      Except.ok (runGet c7WitnessConfiguration (.retPromise (.ful (.str "p"))),
        ⟨c7WitnessConfiguration, false⟩) := by
  have h := c7_reentrancy_and_reuse c7WitnessConfiguration (.retPromise (.ful (.str "p"))) rfl
  exact ⟨h.1, h.2.2.1⟩

/-- `getNextStep`'s cursor update, in closed form. -/
theorem getNextStep_fst_currentStep (t : Transaction) :
    (getNextStep t).1.currentStep =
      (match t.currentStep with
       | .undef => .num 0
       | .nan => .nan
       | .num n => .num (n + 1)) := by
  cases h : t.currentStep with
  | undef => simp [getNextStep, h]
  | nan => simp [getNextStep, h]
  | num n =>
      simp only [getNextStep, h]
      split <;> rfl

/-- The bookkeeping and context-merge helpers leave the cursor untouched. -/
theorem recordStepInvocation_currentStep (t : Transaction) (idx : Nat) :
    (recordStepInvocation t idx).currentStep = t.currentStep := rfl

/-- `mergeContext` leaves the cursor untouched. -/
theorem mergeContext_currentStep (t : Transaction) (r : StepResolution) :
    (mergeContext t r).currentStep = t.currentStep := rfl

/-- `handleStepError` leaves the cursor untouched. -/
theorem handleStepError_currentStep (t : Transaction) (msg : String) :
    (handleStepError t msg).currentStep = t.currentStep := rfl

/-- `afterTransactionIsComplete` leaves the cursor untouched. -/
theorem afterTransactionIsComplete_currentStep (t : Transaction) :
    (afterTransactionIsComplete t).currentStep = t.currentStep := by
  unfold afterTransactionIsComplete
  split <;> rfl

/-- Once `currentStep` has been set, no amount of running ever returns it to
`undefined`. -/
theorem runNextStep_not_undef (fuel : Nat) (t : Transaction)
    (h : t.currentStep ≠ .undef) :
    (runNextStep fuel t).currentStep ≠ .undef := by
  induction fuel generalizing t with
  | zero => exact h
  | succ fuel ih =>
      have hgn : (getNextStep t).1.currentStep ≠ .undef := by
        rw [getNextStep_fst_currentStep]
        cases hc : t.currentStep <;> simp
      cases hn : (getNextStep t).2 with
      | none =>
          simp only [runNextStep, hn]
          rw [afterTransactionIsComplete_currentStep]
          exact hgn
      | some p =>
          rcases p with ⟨idx, f⟩
          simp only [runNextStep, hn]
          cases hout : f ((getNextStep t).1.counts.getD idx 0) ((getNextStep t).1.context) with
          | resolved r =>
              apply ih
              rw [mergeContext_currentStep, recordStepInvocation_currentStep]
              exact hgn
          | rejected msg =>
              rw [handleStepError_currentStep, recordStepInvocation_currentStep]
              exact hgn
          | notAPromise json =>
              rw [handleStepError_currentStep, recordStepInvocation_currentStep]
              exact hgn

/-- Entering the run loop with a non-negative numeric cursor, it ends with a
non-negative numeric cursor. -/
theorem runNextStep_num (fuel : Nat) (t : Transaction) (m : Int)
    (hcur : t.currentStep = .num m) (hm : 0 ≤ m) :
    ∃ m', 0 ≤ m' ∧ (runNextStep fuel t).currentStep = .num m' := by
  induction fuel generalizing t m with
  | zero => exact ⟨m, hm, hcur⟩
  | succ fuel ih =>
      have hgn : (getNextStep t).1.currentStep = .num (m + 1) := by
        rw [getNextStep_fst_currentStep, hcur]
      cases hn : (getNextStep t).2 with
      | none =>
          simp only [runNextStep, hn]
          rw [afterTransactionIsComplete_currentStep, hgn]
          exact ⟨m + 1, by omega, rfl⟩
      | some p =>
          rcases p with ⟨idx, f⟩
          simp only [runNextStep, hn]
          cases hout : f ((getNextStep t).1.counts.getD idx 0) ((getNextStep t).1.context) with
          | resolved r =>
              refine ih _ (m + 1) ?_ (by omega)
              rw [mergeContext_currentStep, recordStepInvocation_currentStep]
              exact hgn
          | rejected msg =>
              rw [handleStepError_currentStep, recordStepInvocation_currentStep, hgn]
              exact ⟨m + 1, by omega, rfl⟩
          | notAPromise json =>
              rw [handleStepError_currentStep, recordStepInvocation_currentStep, hgn]
              exact ⟨m + 1, by omega, rfl⟩

/-- Entering the run loop (with at least one unit of fuel, as all public
operations do) with a numeric cursor `≥ -1`, it ends with a non-negative
numeric cursor. -/
theorem runNextStep_succ_num (fuel : Nat) (t : Transaction) (m : Int)
    (hcur : t.currentStep = .num m) (hm : -1 ≤ m) :
    ∃ m', 0 ≤ m' ∧ (runNextStep (fuel + 1) t).currentStep = .num m' := by
  have hgn : (getNextStep t).1.currentStep = .num (m + 1) := by
    rw [getNextStep_fst_currentStep, hcur]
  cases hn : (getNextStep t).2 with
  | none =>
      simp only [runNextStep, hn]
      rw [afterTransactionIsComplete_currentStep, hgn]
      exact ⟨m + 1, by omega, rfl⟩
  | some p =>
      rcases p with ⟨idx, f⟩
      simp only [runNextStep, hn]
      cases hout : f ((getNextStep t).1.counts.getD idx 0) ((getNextStep t).1.context) with
      | resolved r =>
          refine runNextStep_num fuel _ (m + 1) ?_ (by omega)
          rw [mergeContext_currentStep, recordStepInvocation_currentStep]
          exact hgn
      | rejected msg =>
          rw [handleStepError_currentStep, recordStepInvocation_currentStep, hgn]
          exact ⟨m + 1, by omega, rfl⟩
      | notAPromise json =>
          rw [handleStepError_currentStep, recordStepInvocation_currentStep, hgn]
          exact ⟨m + 1, by omega, rfl⟩

/-- Entering the run loop (with at least one unit of fuel) with the cursor
still unset, it ends with a non-negative numeric cursor. -/
theorem runNextStep_succ_undef (fuel : Nat) (t : Transaction)
    (hcur : t.currentStep = .undef) :
    ∃ m', 0 ≤ m' ∧ (runNextStep (fuel + 1) t).currentStep = .num m' := by
  have hgn : (getNextStep t).1.currentStep = .num 0 := by
    rw [getNextStep_fst_currentStep, hcur]
  cases hn : (getNextStep t).2 with
  | none =>
      simp only [runNextStep, hn]
      rw [afterTransactionIsComplete_currentStep, hgn]
      exact ⟨0, by omega, rfl⟩
  | some p =>
      rcases p with ⟨idx, f⟩
      simp only [runNextStep, hn]
      cases hout : f ((getNextStep t).1.counts.getD idx 0) ((getNextStep t).1.context) with
      | resolved r =>
          refine runNextStep_num fuel _ 0 ?_ (by omega)
          rw [mergeContext_currentStep, recordStepInvocation_currentStep]
          exact hgn
      | rejected msg =>
          rw [handleStepError_currentStep, recordStepInvocation_currentStep, hgn]
          exact ⟨0, by omega, rfl⟩
      | notAPromise json =>
          rw [handleStepError_currentStep, recordStepInvocation_currentStep, hgn]
          exact ⟨0, by omega, rfl⟩

/-- C9: a `Transaction` instance is single-use.  `currentStep`, once set by
the first `execute()`, is never cleared: the run loop never returns it to
`undefined`, a completed `execute()` leaves it a non-negative number, and
`resume()` keeps it a non-negative number — so on any such state a later
`execute()` raises the synchronous `'Transaction is already in progress'`
usage error instead of starting a new run. -/
theorem c9_single_use (t : Transaction) (n : Int) (ctx : List (String × Val))
    (hcur : t.currentStep = .num n) (hn : 0 ≤ n) (herr : t.onErrorRegistered = true) :
    execute t ctx = Except.error executeMessageInProgress ∧
    (∀ fuel (t' : Transaction), t'.currentStep ≠ .undef →
      (runNextStep fuel t').currentStep ≠ .undef) ∧
    (∀ (t' : Transaction) ctx' tr, t'.currentStep = .undef → t'.onErrorRegistered = true →
      execute t' ctx' = Except.ok tr → ∃ m, 0 ≤ m ∧ tr.currentStep = .num m) ∧
    (∀ (t' : Transaction) s tr (m : Int), t'.currentStep = .num m → 0 ≤ m →
      resume t' s = Except.ok tr → ∃ m', 0 ≤ m' ∧ tr.currentStep = .num m') := by
  refine ⟨?_, runNextStep_not_undef, ?_, ?_⟩
  · simp [execute, herr, hcur, CurrentStep.jsGeZero, hn]
  · intro t' ctx' tr hundef herr' hex
    have hguard : t'.currentStep.jsGeZero = false := by
      rw [hundef]; rfl
    simp only [execute, herr', not_true_eq_false, if_false, hguard,
      Bool.false_eq_true] at hex
    injection hex with hex
    rw [← hex]
    exact runNextStep_succ_undef t'.steps.length _ hundef
  · intro t' s tr m hm hm0 hres
    by_cases hg : t'.resumedBeforeNextTick ∧ s ≠ "Yes this is in test code"
    · rw [resume, if_pos hg] at hres
      exact Except.noConfusion hres
    · rw [resume, if_neg hg] at hres
      injection hres with hres
      rw [← hres]
      refine runNextStep_succ_num t'.steps.length _ (m - 1) ?_ (by omega)
      show ({ fireOnResume t' with
        currentStep := t'.currentStep.jsSubOne } : Transaction).currentStep = .num (m - 1)
      rw [hm]
      rfl

/-- C9 witness: the one-step transaction is executed to successful completion
(`onSuccess` fired, cursor at `steps.length`), after which a second
`execute()` raises the usage error. -/
theorem c9_witness :
    execute c9WitnessTransaction [] = Except.ok c9CompletedTransaction ∧
    c9CompletedTransaction.trace =
      [TransactionEvent.stepInvoked 0 [], .onSuccessCalled] ∧
    c9CompletedTransaction.currentStep = .num 1 ∧
    execute c9CompletedTransaction [] = Except.error executeMessageInProgress := by
  refine ⟨rfl, rfl, rfl, ?_⟩
  exact (c9_single_use c9CompletedTransaction 1 [] rfl (by omega) rfl).1

/-- C10: calling `resume()` on a transaction on which `execute()` was never
called raises no usage error: `currentStep` (`undefined`) is decremented to
`NaN`, `getNextStep` finds no step (`steps[NaN]` is `undefined`), and the
sequencer immediately completes — firing `onResume` and `onSuccess` when (and
only when) they are registered — without invoking any step (the trace gains no
`stepInvoked` event, and counts and context are untouched). -/
theorem c10_resume_without_execute (t : Transaction)
    (h1 : t.currentStep = .undef) (h2 : t.resumedBeforeNextTick = false) :
    (resume t "").map
        (fun tr => (tr.currentStep, tr.counts, tr.context, tr.trace)) =
      Except.ok (CurrentStep.nan, t.counts, t.context,
        t.trace ++ (if t.onResumeRegistered then [TransactionEvent.onResumeCalled] else [])
          ++ (if t.onSuccessRegistered then [TransactionEvent.onSuccessCalled] else [])) := by
  rcases t with ⟨steps, oe, os, orr, ose, ctx, cur, rb, counts, tr⟩
  cases h1
  cases h2
  cases os <;> cases orr <;>
    simp [resume, fireOnResume, CurrentStep.jsSubOne, transactionFuel, runNextStep,
      getNextStep, afterTransactionIsComplete, Except.map]

/-- C10 witness: the concrete never-executed transaction, with `onResume` and
`onSuccess` registered. -/
theorem c10_witness :
    (resume c10WitnessTransaction "").map
        (fun tr => (tr.currentStep, tr.counts, tr.context, tr.trace)) =
      Except.ok (CurrentStep.nan, c10WitnessTransaction.counts, c10WitnessTransaction.context,
        c10WitnessTransaction.trace ++
          (if c10WitnessTransaction.onResumeRegistered then [TransactionEvent.onResumeCalled] else [])
          ++ (if c10WitnessTransaction.onSuccessRegistered then [TransactionEvent.onSuccessCalled] else [])) :=
  c10_resume_without_execute c10WitnessTransaction rfl rfl

end PromiseClerk
